import Mathlib

/-!
Verification of the LanguageService facade of ts-simple-ast
(src/src/compiler/tools/LanguageService.ts), shallowly embedded in Lean.

The semantic engine (the TypeScript language service and the ts helper
functions) is an external collaborator and is modelled as a record of
total functions; an absent (undefined) engine result is none.
-/

namespace TsSimpleAst

/-- An absolute file path as handled by the file system wrapper. -/
abbrev Path := String

/-- Engine-native script element kind (ts.ScriptElementKind); values are strings. -/
abbrev ScriptElementKind := String

/-- The value of ts.ScriptElementKind.alias. -/
def aliasElementKind : ScriptElementKind := "alias"

/-- One reference occurrence inside a referenced-symbol group, as the facade
observes it: whether it is a definition occurrence, and the node handle that
reference.getNode() resolves to. -/
structure ReferenceEntry where
  isDefinition : Bool
  nodeId : Nat
  deriving DecidableEq

/-- A referenced-symbol group returned by the engine: one definition
(exposing its script element kind) together with its references. -/
structure ReferencedSymbol where
  definitionKind : ScriptElementKind
  references : List ReferenceEntry
  deriving DecidableEq

/-- Black-box engine-native definition record (ts.DefinitionInfo). -/
abbrev TsDefinitionInfo := Nat

/-- Facade handle wrapping an engine-native definition record. -/
structure DefinitionInfo where
  compilerObject : TsDefinitionInfo
  deriving DecidableEq

/-- Black-box engine-native implementation-location record. -/
abbrev TsImplementationLocation := Nat

/-- Facade handle wrapping an engine-native implementation location. -/
structure ImplementationLocation where
  compilerObject : TsImplementationLocation
  deriving DecidableEq

/-- A rename location: the owning file and the text span to rewrite. -/
structure RenameLocation where
  filePath : Path
  start : Nat
  length : Nat
  deriving DecidableEq

/-- A formatting text change: the span of the original text it replaces
and the replacement text. -/
structure TextChange where
  start : Nat
  length : Nat
  newText : String
  deriving DecidableEq

/-- Black-box engine-native file-text-changes record (ts.FileTextChanges). -/
abbrev TsFileTextChanges := Nat

/-- Facade handle wrapping an engine-native file-text-changes record. -/
structure FileTextChanges where
  compilerObject : TsFileTextChanges
  deriving DecidableEq

/-- Black-box engine-native emit output record. -/
abbrev TsEmitOutput := Nat

/-- Facade emit output: the emitted file path and the engine record. -/
structure EmitOutput where
  filePath : Path
  compilerObject : TsEmitOutput
  deriving DecidableEq

/-- The scope argument of the organize-imports engine call. -/
structure OrganizeImportsScope where
  type : String
  fileName : Path
  deriving DecidableEq

/-- Black-box compiler options record. -/
abbrev CompilerOptions := Nat

/-- Format-code settings: optional configuration fields plus the dynamic
marker property (written as settings["_filled"] in the source) recording
that the fill operation already ran on this object. -/
structure FormatCodeSettings where
  newLineCharacter : Option String := none
  ensureNewLineAtEndOfFile : Option Bool := none
  convertTabsToSpaces : Option Bool := none
  indentSize : Option Nat := none
  filledFlag : Bool := false
  deriving DecidableEq

/-- Editor settings with optional fields. -/
structure EditorSettings where
  indentSize : Option Nat := none
  convertTabsToSpaces : Option Bool := none
  deriving DecidableEq

/-- The process-wide manipulation settings container: supplies the configured
newline string, indentation defaults and the filled editor settings object. -/
structure ManipulationSettings where
  newLineKind : String
  indentSize : Nat
  convertTabsToSpaces : Bool
  editorSettings : EditorSettings
  deriving DecidableEq

/-- Errors the facade can surface: the named catchable failures
(FileNotFoundError, ArgumentNullOrWhitespaceError) and a runtime type
error (calling a list method on an undefined engine result). -/
inductive LsError where
  | fileNotFound (filePath : Path)
  | argumentNullOrWhitespace (argName : String)
  | typeError
  deriving DecidableEq

/-- A facade node handle: the file that owns it, its start offset
(node.getStart()), and its text (node.getText()). -/
structure Node where
  filePath : Path
  start : Nat
  text : String
  deriving DecidableEq

/-- The external semantic engine collaborator: every engine call the facade
issues, as a total function; a query that can come back undefined returns
an Option. -/
structure Engine where
  getDefinitionAtPosition : Path → Nat → Option (List TsDefinitionInfo)
  getImplementationAtPosition : Path → Nat → Option (List TsImplementationLocation)
  findReferences : Path → Nat → Option (List ReferencedSymbol)
  findRenameLocations : Path → Nat → Bool → Bool → Option (List RenameLocation)
  getFormattingEditsForRange : Path → Nat → Nat → FormatCodeSettings → Option (List TextChange)
  getFormattingEditsForDocument : Path → FormatCodeSettings → Option (List TextChange)
  getEmitOutput : Path → Bool → TsEmitOutput
  getIndentationAtPosition : Path → Nat → EditorSettings → Nat
  organizeImports : OrganizeImportsScope → FormatCodeSettings → Option (List TsFileTextChanges)
  getDefaultLibFilePath : CompilerOptions → String
  getDefaultLibFileName : CompilerOptions → String

/-- The global container state the facade reads and writes: the compiler
factory source cache (tracked files with their full text), the file system
wrapper (backing storage), and the process-wide settings. -/
structure GlobalState where
  sourceCache : List (Path × String)
  fileSystemFiles : List (Path × String)
  isDefaultFileSystemHost : Bool
  currentDirectory : Path
  manipulationSettings : ManipulationSettings
  formatCodeSettings : FormatCodeSettings
  compilerOptions : CompilerOptions
  standardizePath : Path → Path

/-- compilerFactory.containsSourceFileAtPath. -/
def containsSourceFileAtPath (g : GlobalState) (filePath : Path) : Bool :=
  (g.sourceCache.lookup filePath).isSome

/-- compilerFactory.getSourceFileFromCacheFromFilePath: the cached full text. -/
def getSourceFileFromCacheFromFilePath (g : GlobalState) (filePath : Path) : Option String :=
  g.sourceCache.lookup filePath

/-- compilerFactory.getSourceFilePaths. -/
def getSourceFilePaths (g : GlobalState) : List Path :=
  g.sourceCache.map Prod.fst

/-- fileSystemWrapper.fileExistsSync: existence in backing storage. -/
def fsFileExistsSync (g : GlobalState) (filePath : Path) : Bool :=
  (g.fileSystemFiles.lookup filePath).isSome

/-- The fileExistsSync closure of the constructor: cache first, then storage. -/
def fileExistsSync (g : GlobalState) (filePath : Path) : Bool :=
  containsSourceFileAtPath g filePath || fsFileExistsSync g filePath

/-- compilerFactory.addOrGetSourceFileFromFilePath: returns the cached text
when present, otherwise loads the file from backing storage into the cache;
returns none when the path exists nowhere. -/
def addOrGetSourceFileFromFilePath (g : GlobalState) (filePath : Path) :
    Option String × GlobalState :=
  match g.sourceCache.lookup filePath with
  | some text => (some text, g)
  | none =>
    match g.fileSystemFiles.lookup filePath with
    | some text => (some text, { g with sourceCache := g.sourceCache ++ [(filePath, text)] })
    | none => (none, g)

/-- languageServiceHost.getScriptSnapshot: undefined when the path exists in
neither the cache nor backing storage, otherwise a snapshot of the full text
of the add-or-get result (which loads an uncached stored file into the cache). -/
def getScriptSnapshot (g : GlobalState) (fileName : Path) : Option String × GlobalState :=
  if fileExistsSync g fileName then addOrGetSourceFileFromFilePath g fileName
  else (none, g)

/-- languageServiceHost.getScriptVersion: ignores the file name, returns the
string rendering of the process-wide counter and bumps the counter. -/
def getScriptVersion (version : Nat) (fileName : Path) : String × Nat :=
  (toString version, version + 1)

/-- The string versions returned across a sequence of getScriptVersion calls. -/
def scriptVersionRun : Nat → List Path → List String
  | _, [] => []
  | version, fileName :: rest =>
    (getScriptVersion version fileName).1 :: scriptVersionRun (getScriptVersion version fileName).2 rest

/-- The counter values underlying the versions returned across a sequence of
getScriptVersion calls. -/
def scriptVersionCounterRun : Nat → List Path → List Nat
  | _, [] => []
  | version, _ :: rest => version :: scriptVersionCounterRun (version + 1) rest

/-- Modelled from the spec: FileUtils.pathJoin belongs to the utilities
module, which is not under src; joins two path segments with one separator. -/
def pathJoin (a b : String) : String :=
  if a.endsWith "/" then a ++ b else a ++ "/" ++ b

namespace LanguageServiceHost

/-- languageServiceHost.getNewLine: the manipulation settings newline string. -/
def getNewLine (g : GlobalState) : String :=
  g.manipulationSettings.newLineKind

/-- languageServiceHost.getDefaultLibFileName: the engine installed library
path when backing storage is the real file system (DefaultFileSystemHost),
otherwise a node_modules-relative path under the current directory. -/
def getDefaultLibFileName (g : GlobalState) (e : Engine) (options : CompilerOptions) : String :=
  if g.isDefaultFileSystemHost then e.getDefaultLibFilePath options
  else pathJoin g.currentDirectory ("node_modules/typescript/lib/" ++ e.getDefaultLibFileName options)

/-- languageServiceHost.useCaseSensitiveFileNames: constantly true. -/
def useCaseSensitiveFileNames (g : GlobalState) : Bool :=
  true

end LanguageServiceHost

namespace CompilerHost

/-- compilerHost.getDefaultLibFileName delegates to the language service host. -/
def getDefaultLibFileName (g : GlobalState) (e : Engine) (options : CompilerOptions) : String :=
  LanguageServiceHost.getDefaultLibFileName g e options

/-- compilerHost.useCaseSensitiveFileNames delegates to the language service host. -/
def useCaseSensitiveFileNames (g : GlobalState) : Bool :=
  LanguageServiceHost.useCaseSensitiveFileNames g

/-- compilerHost.getNewLine delegates to the language service host. -/
def getNewLine (g : GlobalState) : String :=
  LanguageServiceHost.getNewLine g

end CompilerHost

/-- Modelled from the spec: ObjectUtils.assign belongs to the utilities
module, which is not under src; fields present on the source object
override those of the target object. -/
def assignSettings (target source : FormatCodeSettings) : FormatCodeSettings where
  newLineCharacter := source.newLineCharacter.orElse fun _ => target.newLineCharacter
  ensureNewLineAtEndOfFile := source.ensureNewLineAtEndOfFile.orElse fun _ => target.ensureNewLineAtEndOfFile
  convertTabsToSpaces := source.convertTabsToSpaces.orElse fun _ => target.convertTabsToSpaces
  indentSize := source.indentSize.orElse fun _ => target.indentSize
  filledFlag := source.filledFlag || target.filledFlag

/-- Modelled from the spec: fillDefaultFormatCodeSettings belongs to the
utilities module, which is not under src; every still-unset field receives
a hardcoded engine default (the newline string and indentation coming from
the manipulation settings). -/
def fillDefaultFormatCodeSettings (settings : FormatCodeSettings)
    (ms : ManipulationSettings) : FormatCodeSettings where
  newLineCharacter := some (settings.newLineCharacter.getD ms.newLineKind)
  ensureNewLineAtEndOfFile := some (settings.ensureNewLineAtEndOfFile.getD true)
  convertTabsToSpaces := some (settings.convertTabsToSpaces.getD ms.convertTabsToSpaces)
  indentSize := some (settings.indentSize.getD ms.indentSize)
  filledFlag := settings.filledFlag

/-- Modelled from the spec: fillDefaultEditorSettings belongs to the
utilities module, which is not under src; every still-unset field receives
a default from the manipulation settings. -/
def fillDefaultEditorSettings (settings : EditorSettings)
    (ms : ManipulationSettings) : EditorSettings where
  indentSize := some (settings.indentSize.getD ms.indentSize)
  convertTabsToSpaces := some (settings.convertTabsToSpaces.getD ms.convertTabsToSpaces)

/-- LanguageService._getFilledSettings: returns the settings unchanged when
already marked filled; otherwise merges the explicit settings over the
process-wide defaults, fills the remaining fields with hardcoded defaults,
and marks the result filled. -/
def _getFilledSettings (g : GlobalState) (settings : FormatCodeSettings) : FormatCodeSettings :=
  if settings.filledFlag then settings
  else
    { fillDefaultFormatCodeSettings (assignSettings g.formatCodeSettings settings)
        g.manipulationSettings with filledFlag := true }

/-- Either a raw file path string (standardized before use) or an already
resolved source file handle carrying its path. -/
abbrev FilePathOrSourceFile := Sum Path Path

/-- LanguageService._getFilePathFromFilePathOrSourceFile: resolves the
argument to a standardized path and fails with FileNotFoundError when the
path is not in the source cache. -/
def _getFilePathFromFilePathOrSourceFile (g : GlobalState) (arg : FilePathOrSourceFile) :
    Except LsError Path :=
  let filePath := match arg with
    | Sum.inl rawPath => g.standardizePath rawPath
    | Sum.inr sourceFilePath => sourceFilePath
  if containsSourceFileAtPath g filePath then Except.ok filePath
  else Except.error (LsError.fileNotFound filePath)

/-- LanguageService.getDefinitionsAtPosition: forwards the source file path
to the engine with no tracked-file check and normalizes an undefined engine
result to an empty list before wrapping. -/
def getDefinitionsAtPosition (g : GlobalState) (e : Engine) (sourceFilePath : Path)
    (pos : Nat) : List DefinitionInfo :=
  ((e.getDefinitionAtPosition sourceFilePath pos).getD []).map DefinitionInfo.mk

/-- LanguageService.getImplementationsAtPosition. -/
def getImplementationsAtPosition (g : GlobalState) (e : Engine) (sourceFilePath : Path)
    (pos : Nat) : List ImplementationLocation :=
  ((e.getImplementationAtPosition sourceFilePath pos).getD []).map ImplementationLocation.mk

/-- LanguageService.findReferencesAtPosition. -/
def findReferencesAtPosition (g : GlobalState) (e : Engine) (sourceFilePath : Path)
    (pos : Nat) : List ReferencedSymbol :=
  (e.findReferences sourceFilePath pos).getD []

/-- LanguageService.findReferences over a node. -/
def findReferences (g : GlobalState) (e : Engine) (node : Node) : List ReferencedSymbol :=
  findReferencesAtPosition g e node.filePath node.start

/-- LanguageService.getDefinitionReferencingNodes: the eager rendering of the
generator that walks every referenced-symbol group and yields a reference
node when the definition kind of the group is the alias kind or the reference is
not itself a definition occurrence. -/
def getDefinitionReferencingNodes (g : GlobalState) (e : Engine) (node : Node) : List Nat :=
  let references := findReferences g e node
  references.flatMap fun referenceSymbol =>
    let isAlias := referenceSymbol.definitionKind == aliasElementKind
    referenceSymbol.references.filterMap fun reference =>
      if isAlias || !reference.isDefinition then some reference.nodeId else none

/-- LanguageService.findRenameLocations: fixed engine flags (no rename in
strings, no rename in comments), undefined normalized to an empty list. -/
def findRenameLocations (g : GlobalState) (e : Engine) (node : Node) : List RenameLocation :=
  (e.findRenameLocations node.filePath node.start false false).getD []

/-- Replaces the ordered, non-overlapping spans of a character list, the
span offsets being interpreted against the original text (base tracks how
many original characters were already consumed). -/
def applySpansFrom : Nat → List Char → List (Nat × Nat × String) → List Char
  | _, chars, [] => chars
  | base, chars, (start, len, ins) :: rest =>
    chars.take (start - base) ++ ins.data
      ++ applySpansFrom (start + len) (chars.drop (start + len - base)) rest

/-- Modelled from the spec: manipulation.getTextFromFormattingEdits is not
under src; reconstructs the formatted text by applying the ordered
formatting edits against original-text offsets. -/
def getTextFromFormattingEdits (text : String) (formattingEdits : List TextChange) : String :=
  String.mk (applySpansFrom 0 text.data
    (formattingEdits.map fun edit => (edit.start, edit.length, edit.newText)))

/-- Modelled from the spec: manipulation.replaceSourceFileTextForRename is
not under src; applies all rename locations of one file as a single grouped
replacement against original-text offsets. -/
def replaceSourceFileTextForRename (text : String) (renameLocations : List RenameLocation)
    (newName : String) : String :=
  String.mk (applySpansFrom 0 text.data
    (renameLocations.map fun l => (l.start, l.length, newName)))

/-- The distinct file paths of the rename locations in first-seen order
(the iteration order of the KeyValueCache grouping). -/
def renameLocationPaths (locations : List RenameLocation) : List Path :=
  locations.foldl
    (fun acc l => if acc.contains l.filePath then acc else acc ++ [l.filePath]) []

/-- Replaces the text stored in the source cache for one path. -/
def updateCacheText (cache : List (Path × String)) (filePath : Path) (newText : String) :
    List (Path × String) :=
  cache.map fun kv => if kv.1 == filePath then (kv.1, newText) else kv

/-- LanguageService.renameLocations: groups the rename locations by source
file and applies each group as one grouped replacement of the text of that file. -/
def renameLocations (g : GlobalState) (locations : List RenameLocation)
    (newName : String) : GlobalState :=
  (renameLocationPaths locations).foldl
    (fun acc filePath =>
      match acc.sourceCache.lookup filePath with
      | none => acc
      | some text =>
        { acc with sourceCache := (updateCacheText acc.sourceCache filePath
            (replaceSourceFileTextForRename text
              (locations.filter fun l => l.filePath == filePath) newName)) })
    g

/-- Modelled from the spec: errors.throwIfNotStringOrWhitespace belongs to
the errors module, which is not under src; fails when the value is blank or
whitespace-only. -/
def throwIfNotStringOrWhitespace (value : String) (argName : String) : Except LsError Unit :=
  if value.trim = "" then Except.error (LsError.argumentNullOrWhitespace argName)
  else Except.ok ()

/-- The observable outcome of renameNode: the returned result, the global
state afterwards, and whether a rename-location engine query was issued. -/
structure RenameNodeOutcome where
  result : Except LsError Unit
  global : GlobalState
  queriedRenameLocations : Bool

/-- LanguageService.renameNode: rejects a blank new name, returns without
doing anything when the node text already equals the new name, and otherwise
queries the rename locations and applies them. -/
def renameNode (g : GlobalState) (e : Engine) (node : Node) (newName : String) :
    RenameNodeOutcome :=
  match throwIfNotStringOrWhitespace newName "newName" with
  | Except.error err => { result := Except.error err, global := g, queriedRenameLocations := false }
  | Except.ok _ =>
    if node.text = newName then
      { result := Except.ok (), global := g, queriedRenameLocations := false }
    else
      { result := Except.ok ()
        global := renameLocations g (findRenameLocations g e node) newName
        queriedRenameLocations := true }

/-- LanguageService.getFormattingEditsForRange: undefined normalized to an
empty list. -/
def getFormattingEditsForRange (g : GlobalState) (e : Engine) (filePath : Path)
    (range : Nat × Nat) (settings : FormatCodeSettings) : List TextChange :=
  (e.getFormattingEditsForRange filePath range.1 range.2 (_getFilledSettings g settings)).getD []

/-- LanguageService.getFormattingEditsForDocument: undefined normalized to
an empty list. -/
def getFormattingEditsForDocument (g : GlobalState) (e : Engine) (filePath : Path)
    (settings : FormatCodeSettings) : List TextChange :=
  (e.getFormattingEditsForDocument filePath (_getFilledSettings g settings)).getD []

/-- Modelled from the spec: StringUtils.endsWith belongs to the utilities
module, which is not under src; standard suffix test. -/
def stringEndsWith (s ending : String) : Bool :=
  ending.data.isSuffixOf s.data

/-- The global replacement newText.replace of every occurrence of the
pattern carriage-return-optional-then-line-feed with the configured newline
string, scanning left to right. -/
def replaceNewLineChars (nl : List Char) : List Char → List Char
  | [] => []
  | '\r' :: '\n' :: rest => nl ++ replaceNewLineChars nl rest
  | '\n' :: rest => nl ++ replaceNewLineChars nl rest
  | c :: rest => c :: replaceNewLineChars nl rest

/-- Normalizes every line terminator of the text to the configured newline
string. -/
def normalizeNewLines (text : String) (newLineChar : String) : String :=
  String.mk (replaceNewLineChars newLineChar.data text.data)

/-- LanguageService.getFormattedDocumentText: fails with FileNotFoundError
when the file is not in the source cache; otherwise fills the settings,
applies the whole-document formatting edits, appends the configured newline
when the ensure-newline setting is on and the text does not already end
with that newline, and finally normalizes every line terminator. -/
def getFormattedDocumentText (g : GlobalState) (e : Engine) (filePath : Path)
    (settings : FormatCodeSettings) : Except LsError String :=
  match getSourceFileFromCacheFromFilePath g filePath with
  | none => Except.error (LsError.fileNotFound filePath)
  | some sourceText =>
    let filled := _getFilledSettings g settings
    let formattingEdits := getFormattingEditsForDocument g e filePath filled
    let newText := getTextFromFormattingEdits sourceText formattingEdits
    let newLineChar := filled.newLineCharacter.getD ""
    let appended :=
      if filled.ensureNewLineAtEndOfFile.getD false && !(stringEndsWith newText newLineChar)
      then newText ++ newLineChar else newText
    Except.ok (normalizeNewLines appended newLineChar)

/-- LanguageService.getEmitOutput: resolves and checks the path, then wraps
the engine emit output. -/
def getEmitOutput (g : GlobalState) (e : Engine) (arg : FilePathOrSourceFile)
    (emitOnlyDtsFiles : Bool) : Except LsError EmitOutput :=
  match _getFilePathFromFilePathOrSourceFile g arg with
  | Except.error err => Except.error err
  | Except.ok filePath =>
    Except.ok { filePath := filePath, compilerObject := e.getEmitOutput filePath emitOnlyDtsFiles }

/-- LanguageService.getIdentationAtPosition (source spelling): resolves and
checks the path, uses the manipulation settings editor settings when none
are supplied, fills supplied ones, and asks the engine. -/
def getIdentationAtPosition (g : GlobalState) (e : Engine) (arg : FilePathOrSourceFile)
    (position : Nat) (settings : Option EditorSettings) : Except LsError Nat :=
  match _getFilePathFromFilePathOrSourceFile g arg with
  | Except.error err => Except.error err
  | Except.ok filePath =>
    let editorSettings := match settings with
      | none => g.manipulationSettings.editorSettings
      | some s => fillDefaultEditorSettings s g.manipulationSettings
    Except.ok (e.getIndentationAtPosition filePath position editorSettings)

/-- LanguageService.organizeImports: resolves and checks the path, builds
the single-file scope, and maps the engine result records into handles; the
engine result is not guarded against undefined, so an undefined result makes
the list-map call fail with a runtime type error instead of an empty list. -/
def organizeImports (g : GlobalState) (e : Engine) (arg : FilePathOrSourceFile)
    (settings : FormatCodeSettings) : Except LsError (List FileTextChanges) :=
  match _getFilePathFromFilePathOrSourceFile g arg with
  | Except.error err => Except.error err
  | Except.ok fileName =>
    match e.organizeImports { type := "file", fileName := fileName } (_getFilledSettings g settings) with
    | none => Except.error LsError.typeError
    | some results => Except.ok (results.map FileTextChanges.mk)

/-- The language service session state that claim nine is about: the global
container plus the file-path list the cached program was last reset with. -/
structure LsSession where
  global : GlobalState
  programPaths : List Path

/-- LanguageService.resetProgram: resets the cached program with the
then-current file-path list. -/
def resetProgram (s : LsSession) : LsSession :=
  { s with programPaths := getSourceFilePaths s.global }

/-- The constructor: the program starts built eagerly from the current
file-path list. -/
def createLanguageService (g : GlobalState) : LsSession :=
  { global := g, programPaths := getSourceFilePaths g }

/-- Adds or replaces a file in the compiler factory source cache. -/
def addFileToCache (g : GlobalState) (filePath : Path) (text : String) : GlobalState :=
  { g with sourceCache := (filePath, text) :: g.sourceCache.filter fun kv => kv.1 != filePath }

/-- Removes a file from the compiler factory source cache. -/
def removeFileFromCache (g : GlobalState) (filePath : Path) : GlobalState :=
  { g with sourceCache := g.sourceCache.filter fun kv => kv.1 != filePath }

/-- A mutation of the tracked file set. -/
inductive FileSetMutation where
  | add (filePath : Path) (text : String)
  | remove (filePath : Path)

/-- One file-set mutation followed by the synchronous added/removed
notification the constructor subscribed, which resets the program. -/
def applyMutation (s : LsSession) : FileSetMutation → LsSession
  | FileSetMutation.add filePath text =>
    resetProgram { s with global := addFileToCache s.global filePath text }
  | FileSetMutation.remove filePath =>
    resetProgram { s with global := removeFileFromCache s.global filePath }

/-- A sequence of file-set mutations, each with its synchronous reset. -/
def applyMutations (s : LsSession) : List FileSetMutation → LsSession
  | [] => s
  | m :: rest => applyMutations (applyMutation s m) rest

/-- The referencing-node extraction as the specification words it: every
group contributes its references that are not definition occurrences, except
that a group whose definition is an import/alias binding contributes every
occurrence, definition occurrences included. -/
def specReferencingNodes (references : List ReferencedSymbol) : List Nat :=
  references.flatMap fun group =>
    if group.definitionKind == aliasElementKind then
      group.references.map ReferenceEntry.nodeId
    else
      (group.references.filter fun r => !r.isDefinition).map ReferenceEntry.nodeId

/-- getFormattedDocumentText as the claim words it: apply the whole-document
formatting edits in order, then normalize every line terminator to the
configured newline string, then (when the ensure-newline setting is on)
append one trailing newline when the text does not already end with one. -/
def claimFormattedDocumentText (g : GlobalState) (e : Engine) (filePath : Path)
    (settings : FormatCodeSettings) : Except LsError String :=
  match getSourceFileFromCacheFromFilePath g filePath with
  | none => Except.error (LsError.fileNotFound filePath)
  | some sourceText =>
    let filled := _getFilledSettings g settings
    let formattingEdits := getFormattingEditsForDocument g e filePath filled
    let newLineChar := filled.newLineCharacter.getD ""
    let normalized := normalizeNewLines (getTextFromFormattingEdits sourceText formattingEdits) newLineChar
    Except.ok
      (if filled.ensureNewLineAtEndOfFile.getD false && !(stringEndsWith normalized newLineChar)
       then normalized ++ newLineChar else normalized)

/-- A concrete engine for which every optional query comes back undefined. -/
def emptyEngine : Engine where
  getDefinitionAtPosition := fun _ _ => none
  getImplementationAtPosition := fun _ _ => none
  findReferences := fun _ _ => none
  findRenameLocations := fun _ _ _ _ => none
  getFormattingEditsForRange := fun _ _ _ _ => none
  getFormattingEditsForDocument := fun _ _ => none
  getEmitOutput := fun _ _ => 0
  getIndentationAtPosition := fun _ _ _ => 0
  organizeImports := fun _ _ => none
  getDefaultLibFilePath := fun _ => "/typescript/lib/lib.d.ts"
  getDefaultLibFileName := fun _ => "lib.d.ts"

/-- A concrete engine whose whole-document formatting query returns an empty
edit list and whose other optional queries come back undefined. -/
def emptyEditsEngine : Engine :=
  { emptyEngine with getFormattingEditsForDocument := fun _ _ => some [] }

/-- Concrete manipulation settings. -/
def sampleManipulationSettings : ManipulationSettings where
  newLineKind := "\n"
  indentSize := 4
  convertTabsToSpaces := true
  editorSettings := { indentSize := some 4, convertTabsToSpaces := some true }

/-- A concrete global state: one tracked file /a.ts, one stored but
untracked file /b.ts. -/
def sampleGlobal : GlobalState where
  sourceCache := [("/a.ts", "a\n")]
  fileSystemFiles := [("/a.ts", "a\n"), ("/b.ts", "b\n")]
  isDefaultFileSystemHost := true
  currentDirectory := "/dir"
  manipulationSettings := sampleManipulationSettings
  formatCodeSettings := {}
  compilerOptions := 0
  standardizePath := fun p => p

/-- Concrete already-filled settings with a carriage-return line-feed
newline and the ensure-newline option on. -/
def crlfSettings : FormatCodeSettings where
  newLineCharacter := some "\r\n"
  ensureNewLineAtEndOfFile := some true
  convertTabsToSpaces := some true
  indentSize := some 4
  filledFlag := true

/-- The numeric value of a decimal digit character. -/
def decDigitVal (c : Char) : Nat := c.toNat - 48

/-- The number read back from a most-significant-first decimal character
list. -/
def valOfDecChars (l : List Char) : Nat :=
  l.foldl (fun acc c => acc * 10 + decDigitVal c) 0

theorem decDigitVal_digitChar {d : Nat} (h : d < 10) :
    decDigitVal (Nat.digitChar d) = d := by
  interval_cases d <;> rfl

theorem toDigitsCore_shift (n : Nat) :
    ∀ fuel ds, n < fuel → Nat.toDigitsCore 10 fuel n ds = Nat.toDigits 10 n ++ ds := by
  induction n using Nat.strong_induction_on with
  | _ n ih =>
    intro fuel ds hfuel
    obtain ⟨fuel, rfl⟩ : ∃ f, fuel = f + 1 := ⟨fuel - 1, by omega⟩
    by_cases h0 : n / 10 = 0
    · simp [Nat.toDigitsCore, Nat.toDigits, h0]
    · have hlt : n / 10 < n := Nat.div_lt_self (by omega) (by omega)
      rw [show Nat.toDigitsCore 10 (fuel + 1) n ds
            = Nat.toDigitsCore 10 fuel (n / 10) (Nat.digitChar (n % 10) :: ds) from by
          simp [Nat.toDigitsCore, h0]]
      rw [ih (n / 10) hlt fuel _ (by omega)]
      rw [show Nat.toDigits 10 n
            = Nat.toDigitsCore 10 n (n / 10) [Nat.digitChar (n % 10)] from by
          simp [Nat.toDigits, Nat.toDigitsCore, h0]]
      rw [ih (n / 10) hlt n _ (by omega)]
      simp

theorem valOfDecChars_append_digit (xs : List Char) (c : Char) :
    valOfDecChars (xs ++ [c]) = valOfDecChars xs * 10 + decDigitVal c := by
  simp [valOfDecChars, List.foldl_append]

theorem valOfDecChars_toDigits (n : Nat) :
    valOfDecChars (Nat.toDigits 10 n) = n := by
  induction n using Nat.strong_induction_on with
  | _ n ih =>
    by_cases h0 : n / 10 = 0
    · have h10 : n % 10 = n := Nat.mod_eq_of_lt (by omega)
      simp [Nat.toDigits, Nat.toDigitsCore, h0, valOfDecChars, h10]
      exact decDigitVal_digitChar (by omega)
    · have hlt : n / 10 < n := Nat.div_lt_self (by omega) (by omega)
      have hsplit : Nat.toDigits 10 n
          = Nat.toDigits 10 (n / 10) ++ [Nat.digitChar (n % 10)] := by
        rw [show Nat.toDigits 10 n
              = Nat.toDigitsCore 10 n (n / 10) [Nat.digitChar (n % 10)] from by
            simp [Nat.toDigits, Nat.toDigitsCore, h0]]
        exact toDigitsCore_shift (n / 10) n _ (by omega)
      rw [hsplit, valOfDecChars_append_digit, ih (n / 10) hlt,
        decDigitVal_digitChar (Nat.mod_lt n (by omega) : n % 10 < 10)]
      omega

theorem natToString_injective (m n : Nat) (h : toString m = toString n) : m = n := by
  have h2 : Nat.repr m = Nat.repr n := h
  have h3 : Nat.toDigits 10 m = Nat.toDigits 10 n := by
    have h4 := congrArg String.data h2
    simpa [Nat.repr, List.asString] using h4
  have h5 := congrArg valOfDecChars h3
  rwa [valOfDecChars_toDigits, valOfDecChars_toDigits] at h5

theorem scriptVersionRun_eq_map (v0 : Nat) (calls : List Path) :
    scriptVersionRun v0 calls = (scriptVersionCounterRun v0 calls).map toString := by
  induction calls generalizing v0 with
  | nil => rfl
  | cons c rest ih => simp [scriptVersionRun, scriptVersionCounterRun, getScriptVersion, ih]

theorem scriptVersionCounterRun_eq_range (v0 : Nat) (calls : List Path) :
    scriptVersionCounterRun v0 calls = (List.range calls.length).map (fun i => v0 + i) := by
  induction calls generalizing v0 with
  | nil => rfl
  | cons c rest ih =>
    rw [scriptVersionCounterRun, ih, List.length_cons, List.range_succ_eq_map]
    simp only [List.map_cons, List.map_map, Nat.add_zero]
    refine congrArg _ (List.map_congr_left fun i _ => ?_)
    simp [Function.comp]
    omega

theorem scriptVersionCounterRun_pairwise (v0 : Nat) (calls : List Path) :
    (scriptVersionCounterRun v0 calls).Pairwise (· < ·) := by
  rw [scriptVersionCounterRun_eq_range]
  exact (List.pairwise_lt_range _).map _ fun a b h => by omega

theorem scriptVersionRun_nodup (v0 : Nat) (calls : List Path) :
    (scriptVersionRun v0 calls).Nodup := by
  rw [scriptVersionRun_eq_map]
  refine List.Nodup.map (fun a b h => natToString_injective a b h) ?_
  exact (scriptVersionCounterRun_pairwise v0 calls).imp Nat.ne_of_lt

/-- C2: the script-version callback returns the decimal rendering of a
process-wide counter and bumps the counter on every call whatever path is
asked about: across any call sequence the underlying version numbers are
the strictly increasing range starting at the initial counter value, so a
version number is never reused (hence the engine never observes one version
number for two different text contents: the returned version strings are
pairwise distinct), and the run of outputs does not depend on which paths
were asked. -/
theorem getScriptVersion_counter (v0 : Nat) (calls : List Path) :
    scriptVersionRun v0 calls = (scriptVersionCounterRun v0 calls).map toString
    ∧ scriptVersionCounterRun v0 calls = (List.range calls.length).map (fun i => v0 + i)
    ∧ (scriptVersionCounterRun v0 calls).Pairwise (· < ·)
    ∧ (scriptVersionRun v0 calls).Nodup
    ∧ (∀ calls2 : List Path, calls.length = calls2.length →
        scriptVersionRun v0 calls = scriptVersionRun v0 calls2) :=
  ⟨scriptVersionRun_eq_map v0 calls, scriptVersionCounterRun_eq_range v0 calls,
   scriptVersionCounterRun_pairwise v0 calls,
   scriptVersionRun_nodup v0 calls,
   fun calls2 h => by
     rw [scriptVersionRun_eq_map, scriptVersionRun_eq_map,
       scriptVersionCounterRun_eq_range, scriptVersionCounterRun_eq_range, h]⟩

/-- Witness for C2 at a concrete call sequence: asking three times about one
path gives the same version run as asking about three different paths, and
the counters are strictly increasing. -/
theorem getScriptVersion_counter_witness :
    scriptVersionRun 0 ["/a.ts", "/a.ts", "/a.ts"] = scriptVersionRun 0 ["/a.ts", "/b.ts", "/c.ts"]
    ∧ (scriptVersionCounterRun 0 ["/a.ts", "/a.ts", "/a.ts"]).Pairwise (· < ·)
    ∧ (scriptVersionRun 0 ["/a.ts", "/a.ts", "/a.ts"]).Nodup :=
  ⟨(getScriptVersion_counter 0 ["/a.ts", "/a.ts", "/a.ts"]).2.2.2.2
      ["/a.ts", "/b.ts", "/c.ts"] (by decide),
   (getScriptVersion_counter 0 ["/a.ts", "/a.ts", "/a.ts"]).2.2.1,
   (getScriptVersion_counter 0 ["/a.ts", "/a.ts", "/a.ts"]).2.2.2.1⟩

theorem applyMutation_resets (s : LsSession) (m : FileSetMutation) :
    (applyMutation s m).programPaths = getSourceFilePaths (applyMutation s m).global := by
  cases m <;> rfl

/-- C9: every addition or removal of a tracked file synchronously resets the
cached program with the then-current file-path list, so after any sequence
of file-set mutations starting from the constructed service the program
path list equals the tracked path list, and a single mutation applied to any
session re-establishes that equality. -/
theorem program_reflects_file_set (g : GlobalState) (muts : List FileSetMutation) :
    (applyMutations (createLanguageService g) muts).programPaths
      = getSourceFilePaths (applyMutations (createLanguageService g) muts).global
    ∧ ∀ (s : LsSession) (m : FileSetMutation),
        (applyMutation s m).programPaths = getSourceFilePaths (applyMutation s m).global := by
  constructor
  · have h : ∀ s : LsSession, s.programPaths = getSourceFilePaths s.global →
        (applyMutations s muts).programPaths
          = getSourceFilePaths (applyMutations s muts).global := by
      induction muts with
      | nil => exact fun s hs => hs
      | cons m rest ih => exact fun s hs => ih _ (applyMutation_resets s m)
    exact h (createLanguageService g) rfl
  · exact applyMutation_resets

theorem lookup_append_of_none {l1 l2 : List (Path × String)} {p : Path}
    (h : l1.lookup p = none) : (l1 ++ l2).lookup p = l2.lookup p := by
  induction l1 with
  | nil => rfl
  | cons kv rest ih =>
    rw [List.cons_append]
    cases hk : p == kv.1 with
    | true => simp [List.lookup, hk] at h
    | false =>
      simp only [List.lookup, hk] at h ⊢
      exact ih h

/-- C10: the script-snapshot callback is an add-or-get: for a path absent
from the source cache but present in backing storage it loads the file into
the cache, so the tracked set afterwards contains the path and a snapshot is
returned; it returns undefined exactly when the path exists in neither the
cache nor backing storage, leaving the state unchanged. -/
theorem getScriptSnapshot_loads (g : GlobalState) (p : Path) :
    (containsSourceFileAtPath g p = false → fsFileExistsSync g p = true →
      containsSourceFileAtPath (getScriptSnapshot g p).2 p = true
      ∧ ((getScriptSnapshot g p).1).isSome = true)
    ∧ ((getScriptSnapshot g p).1 = none →
      containsSourceFileAtPath g p = false ∧ fsFileExistsSync g p = false)
    ∧ (containsSourceFileAtPath g p = false → fsFileExistsSync g p = false →
      getScriptSnapshot g p = (none, g)) := by
  cases hc : g.sourceCache.lookup p with
  | some t =>
    simp [getScriptSnapshot, fileExistsSync, containsSourceFileAtPath, fsFileExistsSync,
      addOrGetSourceFileFromFilePath, hc]
  | none =>
    cases hf : g.fileSystemFiles.lookup p with
    | none =>
      simp [getScriptSnapshot, fileExistsSync, containsSourceFileAtPath, fsFileExistsSync,
        addOrGetSourceFileFromFilePath, hc, hf]
    | some t =>
      simp [getScriptSnapshot, fileExistsSync, containsSourceFileAtPath, fsFileExistsSync,
        addOrGetSourceFileFromFilePath, hc, hf, lookup_append_of_none, List.lookup]

/-- Witness for C10: /b.ts is stored but untracked; after the snapshot call
it is tracked and a snapshot was returned. -/
theorem getScriptSnapshot_loads_witness :
    containsSourceFileAtPath (getScriptSnapshot sampleGlobal "/b.ts").2 "/b.ts" = true
    ∧ ((getScriptSnapshot sampleGlobal "/b.ts").1).isSome = true :=
  (getScriptSnapshot_loads sampleGlobal "/b.ts").1 (by decide) (by decide)

/-- C3: renaming a node to its own current text is a no-op: no
rename-location engine query is issued and the global state, in particular
the text of every file in the set, is unchanged. -/
theorem renameNode_same_text_noop (g : GlobalState) (e : Engine) (node : Node)
    (newName : String) (h : node.text = newName) :
    (renameNode g e node newName).queriedRenameLocations = false
    ∧ (renameNode g e node newName).global = g := by
  unfold renameNode
  cases hw : throwIfNotStringOrWhitespace newName "newName" with
  | error err => exact ⟨rfl, rfl⟩
  | ok u => simp [h]

/-- Witness for C3: renaming a concrete node whose text is already the new
name queries nothing and leaves the state unchanged. -/
theorem renameNode_same_text_noop_witness :
    (renameNode sampleGlobal emptyEngine
        { filePath := "/a.ts", start := 0, text := "x" } "x").queriedRenameLocations = false
    ∧ (renameNode sampleGlobal emptyEngine
        { filePath := "/a.ts", start := 0, text := "x" } "x").global = sampleGlobal :=
  renameNode_same_text_noop sampleGlobal emptyEngine
    { filePath := "/a.ts", start := 0, text := "x" } "x" rfl

/-- C7: the settings fill is idempotent, filling twice gives the same object
as filling once, and for a not-yet-filled object the merge precedence on
every field is explicit setting first, then the process-wide default, then
the hardcoded engine default. -/
theorem getFilledSettings_idempotent (g : GlobalState) (s : FormatCodeSettings) :
    _getFilledSettings g (_getFilledSettings g s) = _getFilledSettings g s
    ∧ (s.filledFlag = false →
        (_getFilledSettings g s).newLineCharacter
          = some ((s.newLineCharacter.orElse fun _ => g.formatCodeSettings.newLineCharacter).getD
              g.manipulationSettings.newLineKind)
        ∧ (_getFilledSettings g s).ensureNewLineAtEndOfFile
          = some ((s.ensureNewLineAtEndOfFile.orElse
              fun _ => g.formatCodeSettings.ensureNewLineAtEndOfFile).getD true)
        ∧ (_getFilledSettings g s).convertTabsToSpaces
          = some ((s.convertTabsToSpaces.orElse fun _ => g.formatCodeSettings.convertTabsToSpaces).getD
              g.manipulationSettings.convertTabsToSpaces)
        ∧ (_getFilledSettings g s).indentSize
          = some ((s.indentSize.orElse fun _ => g.formatCodeSettings.indentSize).getD
              g.manipulationSettings.indentSize)) := by
  constructor
  · by_cases hf : s.filledFlag
    · simp [_getFilledSettings, hf]
    · simp [_getFilledSettings, hf]
  · intro hf
    simp [_getFilledSettings, hf, fillDefaultFormatCodeSettings, assignSettings]

/-- Witness for C7 at the empty settings object and the sample state. -/
theorem getFilledSettings_idempotent_witness :
    _getFilledSettings sampleGlobal (_getFilledSettings sampleGlobal {})
      = _getFilledSettings sampleGlobal {}
    ∧ (_getFilledSettings sampleGlobal {}).newLineCharacter = some "\n" :=
  ⟨(getFilledSettings_idempotent sampleGlobal {}).1,
   by simpa using ((getFilledSettings_idempotent sampleGlobal {}).2 rfl).1⟩

/-- C8: the compile host delegates the default-library path, the
case-sensitivity policy and the newline string to the interactive host, so
the two always agree; the default-library path is the engine installed
library path when backing storage is the real file system and a
node_modules-relative path under the current directory otherwise. -/
theorem hosts_agree (g : GlobalState) (e : Engine) (options : CompilerOptions) :
    CompilerHost.getDefaultLibFileName g e options
      = LanguageServiceHost.getDefaultLibFileName g e options
    ∧ CompilerHost.useCaseSensitiveFileNames g = LanguageServiceHost.useCaseSensitiveFileNames g
    ∧ CompilerHost.getNewLine g = LanguageServiceHost.getNewLine g
    ∧ (g.isDefaultFileSystemHost = true →
        LanguageServiceHost.getDefaultLibFileName g e options = e.getDefaultLibFilePath options)
    ∧ (g.isDefaultFileSystemHost = false →
        LanguageServiceHost.getDefaultLibFileName g e options
          = pathJoin g.currentDirectory
              ("node_modules/typescript/lib/" ++ e.getDefaultLibFileName options)) := by
  refine ⟨rfl, rfl, rfl, fun h => ?_, fun h => ?_⟩ <;>
    simp [LanguageServiceHost.getDefaultLibFileName, h]

/-- Witness for C8 at the sample state, whose backing storage is the real
file system. -/
theorem hosts_agree_witness :
    CompilerHost.getDefaultLibFileName sampleGlobal emptyEngine 0
      = LanguageServiceHost.getDefaultLibFileName sampleGlobal emptyEngine 0
    ∧ LanguageServiceHost.getDefaultLibFileName sampleGlobal emptyEngine 0
      = emptyEngine.getDefaultLibFilePath 0 :=
  ⟨(hosts_agree sampleGlobal emptyEngine 0).1,
   (hosts_agree sampleGlobal emptyEngine 0).2.2.2.1 rfl⟩

theorem filterMap_if_yield (b : Bool) (refs : List ReferenceEntry) :
    (refs.filterMap fun r => if b || !r.isDefinition then some r.nodeId else none)
      = if b then refs.map ReferenceEntry.nodeId
        else (refs.filter fun r => !r.isDefinition).map ReferenceEntry.nodeId := by
  induction refs with
  | nil => cases b <;> simp
  | cons r rest ih =>
    cases b with
    | true => simp_all [List.filterMap_cons]
    | false =>
      cases hd : r.isDefinition <;> simp_all [List.filterMap_cons, List.filter_cons]

/-- C4: the referencing-node extraction yields, across every
reference-symbol group of the find-references result, exactly the
references that are not definition occurrences, except that a group whose
definition is an alias binding contributes every occurrence. -/
theorem getDefinitionReferencingNodes_spec (g : GlobalState) (e : Engine) (node : Node) :
    getDefinitionReferencingNodes g e node = specReferencingNodes (findReferences g e node) := by
  simp only [getDefinitionReferencingNodes, specReferencingNodes]
  generalize findReferences g e node = refs
  induction refs with
  | nil => rfl
  | cons group rest ih =>
    simp only [List.flatMap_cons, ih]
    rw [filterMap_if_yield]

/-- C1 fails as stated: /missing.ts is not tracked, yet the definitions
query does not fail with a file-not-found error — it cannot fail at all and
silently returns the empty list when the engine has no result for the
unknown path. -/
theorem position_query_untracked_counterexample :
    containsSourceFileAtPath sampleGlobal "/missing.ts" = false
    ∧ getDefinitionsAtPosition sampleGlobal emptyEngine "/missing.ts" 0 = [] := by
  exact ⟨by decide, rfl⟩

/-- C1 (amended): only the operations that resolve their argument through
the tracked-file check — emit, indentation, organize-imports — and the
formatted-document-text operation fail with a file-not-found error for an
untracked path, and never fail with that error for a tracked path; the
definition, implementation and reference position queries perform no
tracked-file check and silently normalize an absent engine result to an
empty list even for an unknown path. -/
theorem position_query_tracked_check (g : GlobalState) (e : Engine) (p raw : Path)
    (pos : Nat) (b : Bool) (s : FormatCodeSettings) (es : Option EditorSettings) :
    (containsSourceFileAtPath g p = false →
      getEmitOutput g e (Sum.inr p) b = Except.error (LsError.fileNotFound p)
      ∧ getIdentationAtPosition g e (Sum.inr p) pos es = Except.error (LsError.fileNotFound p)
      ∧ organizeImports g e (Sum.inr p) s = Except.error (LsError.fileNotFound p)
      ∧ getFormattedDocumentText g e p s = Except.error (LsError.fileNotFound p)
      ∧ (e.getDefinitionAtPosition p pos = none → getDefinitionsAtPosition g e p pos = [])
      ∧ (e.getImplementationAtPosition p pos = none → getImplementationsAtPosition g e p pos = [])
      ∧ (e.findReferences p pos = none → findReferencesAtPosition g e p pos = []))
    ∧ (containsSourceFileAtPath g (g.standardizePath raw) = false →
      getEmitOutput g e (Sum.inl raw) b
        = Except.error (LsError.fileNotFound (g.standardizePath raw)))
    ∧ (containsSourceFileAtPath g p = true →
      getEmitOutput g e (Sum.inr p) b
          = Except.ok { filePath := p, compilerObject := e.getEmitOutput p b }
      ∧ (∀ q, getIdentationAtPosition g e (Sum.inr p) pos es
          ≠ Except.error (LsError.fileNotFound q))
      ∧ (∀ q, organizeImports g e (Sum.inr p) s ≠ Except.error (LsError.fileNotFound q))
      ∧ (∀ q, getFormattedDocumentText g e p s ≠ Except.error (LsError.fileNotFound q))) := by
  refine ⟨fun h => ?_, fun h => ?_, fun h => ?_⟩
  · have hc : g.sourceCache.lookup p = none := by
      unfold containsSourceFileAtPath at h
      cases hl : g.sourceCache.lookup p with
      | none => rfl
      | some t => rw [hl] at h; simp at h
    refine ⟨?_, ?_, ?_, ?_, fun hd => ?_, fun hi => ?_, fun hr => ?_⟩
    · simp [getEmitOutput, _getFilePathFromFilePathOrSourceFile, h]
    · simp [getIdentationAtPosition, _getFilePathFromFilePathOrSourceFile, h]
    · simp [organizeImports, _getFilePathFromFilePathOrSourceFile, h]
    · simp [getFormattedDocumentText, getSourceFileFromCacheFromFilePath, hc]
    · simp [getDefinitionsAtPosition, hd]
    · simp [getImplementationsAtPosition, hi]
    · simp [findReferencesAtPosition, hr]
  · simp [getEmitOutput, _getFilePathFromFilePathOrSourceFile, h]
  · obtain ⟨t, hc⟩ : ∃ t, g.sourceCache.lookup p = some t := by
      unfold containsSourceFileAtPath at h
      exact Option.isSome_iff_exists.mp h
    refine ⟨?_, fun q => ?_, fun q => ?_, fun q => ?_⟩
    · simp [getEmitOutput, _getFilePathFromFilePathOrSourceFile, h]
    · simp [getIdentationAtPosition, _getFilePathFromFilePathOrSourceFile, h]
    · simp only [organizeImports, _getFilePathFromFilePathOrSourceFile, h, if_true]
      cases e.organizeImports { type := "file", fileName := p } (_getFilledSettings g s) <;> simp
    · simp [getFormattedDocumentText, getSourceFileFromCacheFromFilePath, hc]

/-- Witness for the amended C1: emit fails with file-not-found on the
untracked /missing.ts and succeeds on the tracked /a.ts. -/
theorem position_query_tracked_check_witness :
    getEmitOutput sampleGlobal emptyEngine (Sum.inr "/missing.ts") false
      = Except.error (LsError.fileNotFound "/missing.ts")
    ∧ getEmitOutput sampleGlobal emptyEngine (Sum.inr "/a.ts") false
      = Except.ok
          { filePath := "/a.ts", compilerObject := emptyEngine.getEmitOutput "/a.ts" false } :=
  ⟨((position_query_tracked_check sampleGlobal emptyEngine "/missing.ts" "/missing.ts" 0 false
      {} none).1 (by decide)).1,
   ((position_query_tracked_check sampleGlobal emptyEngine "/a.ts" "/missing.ts" 0 false
      {} none).2.2 (by decide)).1⟩

/-- C5 fails as stated: with the tracked file /a.ts and an engine whose
organize-imports result is undefined, the facade does not return an empty
sequence — the unguarded list-map call fails with a runtime type error. -/
theorem organizeImports_engine_none_counterexample :
    emptyEngine.organizeImports { type := "file", fileName := "/a.ts" }
        (_getFilledSettings sampleGlobal {}) = none
    ∧ organizeImports sampleGlobal emptyEngine (Sum.inr "/a.ts") {}
        = Except.error LsError.typeError := by
  exact ⟨rfl, rfl⟩

/-- C5 (amended): an empty or undefined engine result normalizes to an
empty sequence for the definition, implementation, reference,
rename-location and formatting-edit queries; organize-imports normalizes
only an empty engine list — an undefined engine result there is not guarded
and surfaces as a runtime type error instead of an empty sequence. -/
theorem empty_result_normalization (g : GlobalState) (e : Engine) (p : Path)
    (pos : Nat) (node : Node) (range : Nat × Nat) (s : FormatCodeSettings) :
    (e.getDefinitionAtPosition p pos = none → getDefinitionsAtPosition g e p pos = [])
    ∧ (e.getDefinitionAtPosition p pos = some [] → getDefinitionsAtPosition g e p pos = [])
    ∧ (e.getImplementationAtPosition p pos = none → getImplementationsAtPosition g e p pos = [])
    ∧ (e.findReferences p pos = none → findReferencesAtPosition g e p pos = [])
    ∧ (e.findRenameLocations node.filePath node.start false false = none →
        findRenameLocations g e node = [])
    ∧ (e.getFormattingEditsForRange p range.1 range.2 (_getFilledSettings g s) = none →
        getFormattingEditsForRange g e p range s = [])
    ∧ (e.getFormattingEditsForDocument p (_getFilledSettings g s) = none →
        getFormattingEditsForDocument g e p s = [])
    ∧ (containsSourceFileAtPath g p = true →
        e.organizeImports { type := "file", fileName := p } (_getFilledSettings g s) = some [] →
        organizeImports g e (Sum.inr p) s = Except.ok [])
    ∧ (containsSourceFileAtPath g p = true →
        e.organizeImports { type := "file", fileName := p } (_getFilledSettings g s) = none →
        organizeImports g e (Sum.inr p) s = Except.error LsError.typeError) := by
  refine ⟨fun h => ?_, fun h => ?_, fun h => ?_, fun h => ?_, fun h => ?_, fun h => ?_,
    fun h => ?_, fun ht h => ?_, fun ht h => ?_⟩
  · simp [getDefinitionsAtPosition, h]
  · simp [getDefinitionsAtPosition, h]
  · simp [getImplementationsAtPosition, h]
  · simp [findReferencesAtPosition, h]
  · simp [findRenameLocations, h]
  · simp [getFormattingEditsForRange, h]
  · simp [getFormattingEditsForDocument, h]
  · simp [organizeImports, _getFilePathFromFilePathOrSourceFile, ht, h]
  · simp [organizeImports, _getFilePathFromFilePathOrSourceFile, ht, h]

/-- Witness for the amended C5 at the sample state and the engine all of
whose optional queries are undefined. -/
theorem empty_result_normalization_witness :
    getDefinitionsAtPosition sampleGlobal emptyEngine "/a.ts" 0 = []
    ∧ findReferencesAtPosition sampleGlobal emptyEngine "/a.ts" 0 = []
    ∧ organizeImports sampleGlobal emptyEngine (Sum.inr "/a.ts") {}
        = Except.error LsError.typeError :=
  ⟨(empty_result_normalization sampleGlobal emptyEngine "/a.ts" 0
      { filePath := "/a.ts", start := 0, text := "x" } (0, 0) {}).1 rfl,
   (empty_result_normalization sampleGlobal emptyEngine "/a.ts" 0
      { filePath := "/a.ts", start := 0, text := "x" } (0, 0) {}).2.2.2.1 rfl,
   (empty_result_normalization sampleGlobal emptyEngine "/a.ts" 0
      { filePath := "/a.ts", start := 0, text := "x" } (0, 0) {}).2.2.2.2.2.2.2.2
     (by decide) rfl⟩

/-- C6 fails as stated: on the tracked file /a.ts with text starting a and
ending line-feed, no formatting edits, the ensure-newline option on and the
configured newline carriage-return line-feed, the code appends before
normalizing and yields the text a, carriage-return line-feed,
carriage-return line-feed, while the claimed order (normalize, then append)
yields a single trailing carriage-return line-feed. -/
theorem getFormattedDocumentText_order_counterexample :
    getFormattedDocumentText sampleGlobal emptyEditsEngine "/a.ts" crlfSettings
      = Except.ok "a\r\n\r\n"
    ∧ claimFormattedDocumentText sampleGlobal emptyEditsEngine "/a.ts" crlfSettings
      = Except.ok "a\r\n"
    ∧ getFormattedDocumentText sampleGlobal emptyEditsEngine "/a.ts" crlfSettings
      ≠ claimFormattedDocumentText sampleGlobal emptyEditsEngine "/a.ts" crlfSettings := by
  refine ⟨rfl, rfl, ?_⟩
  intro h
  rw [show getFormattedDocumentText sampleGlobal emptyEditsEngine "/a.ts" crlfSettings
      = Except.ok "a\r\n\r\n" from rfl,
    show claimFormattedDocumentText sampleGlobal emptyEditsEngine "/a.ts" crlfSettings
      = Except.ok "a\r\n" from rfl] at h
  simp at h

/-- C6 (amended): for a cached file the formatted document text is obtained
by applying the whole-document formatting edits in order, then appending the
configured newline string when the ensure-newline setting is on and the text
does not already end with that exact string, and then normalizing every line
terminator to the configured newline; a file not in the cache fails with a
file-not-found error. -/
theorem getFormattedDocumentText_pipeline (g : GlobalState) (e : Engine) (p : Path)
    (s : FormatCodeSettings) :
    (getSourceFileFromCacheFromFilePath g p = none →
      getFormattedDocumentText g e p s = Except.error (LsError.fileNotFound p))
    ∧ (∀ text, getSourceFileFromCacheFromFilePath g p = some text →
        getFormattedDocumentText g e p s =
          (let filled := _getFilledSettings g s
           let newLineChar := filled.newLineCharacter.getD ""
           let applied := getTextFromFormattingEdits text
             (getFormattingEditsForDocument g e p filled)
           Except.ok (normalizeNewLines
             (if filled.ensureNewLineAtEndOfFile.getD false
                 && !(stringEndsWith applied newLineChar)
              then applied ++ newLineChar else applied) newLineChar))) := by
  constructor
  · intro hc
    unfold getFormattedDocumentText
    rw [hc]
  · intro text hc
    unfold getFormattedDocumentText
    rw [hc]

/-- Witness for the amended C6: the pipeline equality evaluated on the
sample state, and the file-not-found failure on an untracked path. -/
theorem getFormattedDocumentText_pipeline_witness :
    getFormattedDocumentText sampleGlobal emptyEditsEngine "/a.ts" crlfSettings
      = Except.ok (normalizeNewLines
          (getTextFromFormattingEdits "a\n"
              (getFormattingEditsForDocument sampleGlobal emptyEditsEngine "/a.ts" crlfSettings)
            ++ "\r\n") "\r\n")
    ∧ getFormattedDocumentText sampleGlobal emptyEditsEngine "/missing.ts" crlfSettings
      = Except.error (LsError.fileNotFound "/missing.ts") := by
  constructor
  · have h := (getFormattedDocumentText_pipeline sampleGlobal emptyEditsEngine "/a.ts"
      crlfSettings).2 "a\n" rfl
    rw [h]
    rfl
  · exact (getFormattedDocumentText_pipeline sampleGlobal emptyEditsEngine "/missing.ts"
      crlfSettings).1 rfl

end TsSimpleAst
